import Mathlib

/-!
Shallow embedding of the Real-Time IDE repository
(`src/components/FirepadEditor.tsx` and the Home page found in the same
source file).  JavaScript strings are modelled as `List Nat` of Unicode
code points (the program never manipulates lone surrogates); "binary
strings" produced by `atob`/`unescape` are `List Nat` of byte values.
Nullable values are `Option`, and a thrown exception is `Option.none` at
the call sites where the program lets it propagate.
-/

namespace IDE

/-- A JS string as a list of Unicode code points. -/
abbrev JSStr := List Nat

/-- JS truthiness of a nullable string: `null`/`undefined` and `''` are falsy. -/
def truthyStr : Option JSStr → Bool
  | none => false
  | some s => !s.isEmpty

/-- JS `x || ''` on a nullable string: kept when truthy, otherwise `''`. -/
def orEmpty (o : Option JSStr) : JSStr :=
  match o with
  | none => []
  | some s => s

/-! ## Document session identifiers (FirepadEditor.tsx line 56)

`const documentId = `\x7b`${fileId}.${firebaseRef.key}`\x7d`;`
-/

/-- The Yjs websocket room name: `fileId + "." + firebaseRef.key`. -/
def documentId (fileId key : String) : String :=
  fileId ++ "." ++ key

/-- The four panes of the Home page. -/
inductive Pane where
  | cpp | java | py | input
  deriving DecidableEq, Repr

/-- A firebase database reference, reduced to the one field the editor
uses: its key (last path segment). -/
structure FirebaseRef where
  key : String
  deriving DecidableEq, Repr

/-- Firebase `ref.child(k)` yields a reference whose `key` is `k`. -/
def FirebaseRef.child (_parent : FirebaseRef) (k : String) : FirebaseRef :=
  ⟨k⟩

/-- The `firebaseRefs` memo of the Home page: child keys per pane. -/
def firebaseRefs (root : Option FirebaseRef) : Pane → Option FirebaseRef
  | Pane.cpp => root.map (·.child "editor-cpp")
  | Pane.java => root.map (·.child "editor-java")
  | Pane.py => root.map (·.child "editor-py")
  | Pane.input => root.map (·.child "input")

/-! ## Editor options (FirepadEditor.tsx lines 151-156) -/

/-- The Monaco editor options that appear in this program.  The object
spread copies every field; `readOnly` is the one the component mutates. -/
structure MonacoOptions where
  readOnly : Option Bool := none
  minimapEnabled : Option Bool := none
  automaticLayout : Option Bool := none
  deriving DecidableEq, Repr

/-- The `useMemo` body: spread `props.options || \x7b\x7d`, then force
`readOnly = true` while unsynced. -/
def computeEditorOptions (isSynced : Bool) (propsOptions : Option MonacoOptions) :
    MonacoOptions :=
  let editorOptions := propsOptions.getD {}
  if !isSynced then { editorOptions with readOnly := some true }
  else editorOptions

/-- Via `useState<boolean>(false)`, the sync flag starts false. -/
def initialIsSynced : Bool := false

/-- The `provider.on('sync', ...)` handler's effect on the `isSynced`
state: `setIsSynced(isSynced)`. -/
def syncEventIsSynced (event : Bool) : Bool := event

/-! ## Shared-document initialization (FirepadEditor.tsx lines 126-136) -/

/-- The parts of a `Y.Doc` this component touches: the `monaco` text and
the `isInitialized` map's single flag (absent until first set). -/
structure YDocModel where
  monacoText : JSStr
  isInitialized : Option Bool
  deriving DecidableEq, Repr

/-- JS truthiness of the map entry (`undefined` is falsy). -/
def truthyFlag : Option Bool → Bool
  | none => false
  | some b => b

/-- The `'sync'` event handler's effect on the shared document: when the
event reports synced and the `isInitialized` flag is falsy, set the flag
and insert `defaultValue ?? ''` at offset 0. -/
def onSyncDoc (doc : YDocModel) (defaultValue : Option JSStr) (isSynced : Bool) :
    YDocModel :=
  if isSynced then
    if !truthyFlag doc.isInitialized then
      { doc with
        isInitialized := some true
        monacoText := orEmpty defaultValue ++ doc.monacoText }
    else doc
  else doc

/-! ## Awareness presence styling (FirepadEditor.tsx lines 82-118) -/

/-- The awareness state of one client, as read by the handler. -/
structure UserAwareness where
  cursorColor : Option JSStr
  deriving DecidableEq, Repr

/-- Decimal digits of a client id, used in the interpolated selectors. -/
def natToDigits (n : Nat) : JSStr :=
  (Nat.toDigits 10 n).map Char.toNat

/-- String literal helper: code points of a Lean string. -/
def strCps (s : String) : JSStr := s.data.map Char.toNat

/-- The interpolated `styleToAdd` template literal, whitespace included. -/
def styleToAdd (addedUserID : Nat) (userColor : JSStr) : JSStr :=
  strCps ".yRemoteSelection-" ++ natToDigits addedUserID ++
  strCps ", .yRemoteSelectionHead-" ++ natToDigits addedUserID ++
  strCps " \x7b\n              --yjs-selection-color: " ++ userColor ++
  strCps ";\n            \x7d"

/-- The HTML chunk passed to `document.body.insertAdjacentHTML`. -/
def styleTag (addedUserID : Nat) (userColor : JSStr) : JSStr :=
  strCps "<style>" ++ styleToAdd addedUserID userColor ++ strCps "</style>"

/-- The lookup `awarenessState.get(id)?.cursorColor ?? 'orange'`. -/
def colorOf (states : Nat → Option UserAwareness) (id : Nat) : JSStr :=
  match (states id).bind (·.cursorColor) with
  | some c => c
  | none => strCps "orange"

/-- The `for (let addedUserID of added)` loop: one `insertAdjacentHTML
('beforeend', ...)` per added id, appending to the body's children. -/
def insertStylesLoop (states : Nat → Option UserAwareness) (added : List Nat)
    (body : List JSStr) : List JSStr :=
  match added with
  | [] => body
  | id :: rest => insertStylesLoop states rest (body ++ [styleTag id (colorOf states id)])

/-- The whole `provider.awareness.on('change')` handler: early return when
`added.length === 0`, otherwise the style-injection loop.  `updated` and
`removed` are received but never used. -/
def onAwarenessChange (states : Nat → Option UserAwareness)
    (added _updated _removed : List Nat) (body : List JSStr) : List JSStr :=
  if added.length = 0 then body
  else insertStylesLoop states added body

/-! ## Session lifecycle (FirepadEditor.tsx lines 48-149) -/

/-- The observable actions of the collaboration effect, in program order. -/
inductive SessionAction where
  | createDoc
  | createProvider
  | setLocalCursorColor
  | createBinding
  | attachAwarenessChangeHandler
  | attachStatusHandler
  | attachSyncHandler
  | setConnectionStatus (s : String)
  | setIsSynced (b : Bool)
  | destroyDoc
  | destroyProvider
  deriving DecidableEq, Repr

/-- The effect body's action sequence (lines 58-136). -/
def effectBodyTrace : List SessionAction :=
  [SessionAction.createDoc,
   SessionAction.createProvider,
   SessionAction.setLocalCursorColor,
   SessionAction.createBinding,
   SessionAction.attachAwarenessChangeHandler,
   SessionAction.attachStatusHandler,
   SessionAction.attachSyncHandler]

/-- The effect cleanup's action sequence (lines 138-146). -/
def effectCleanupTrace : List SessionAction :=
  [SessionAction.setConnectionStatus "disconnected",
   SessionAction.setIsSynced false,
   SessionAction.destroyDoc,
   SessionAction.destroyProvider]

/-- Session resources and component state affected by the trace. -/
structure SessionState where
  docAlive : Bool := false
  providerAlive : Bool := false
  bindingAlive : Bool := false
  connectionStatus : String := "disconnected"
  isSynced : Bool := false
  deriving DecidableEq, Repr

def applyAction (s : SessionState) : SessionAction → SessionState
  | SessionAction.createDoc => { s with docAlive := true }
  | SessionAction.createProvider => { s with providerAlive := true }
  | SessionAction.createBinding => { s with bindingAlive := true }
  | SessionAction.setConnectionStatus c => { s with connectionStatus := c }
  | SessionAction.setIsSynced b => { s with isSynced := b }
  | SessionAction.destroyDoc => { s with docAlive := false }
  | SessionAction.destroyProvider => { s with providerAlive := false }
  | _ => s

def runTrace (s : SessionState) : List SessionAction → SessionState
  | [] => s
  | a :: rest => runTrace (applyAction s a) rest

/-! ## encode / decode (Home page lines 199-210)

`encode(str)  = btoa(unescape(encodeURIComponent(str || '')))`
`decode(bytes)`: `escape(atob(bytes || ''))`, then `decodeURIComponent`,
falling back to `unescape` when `decodeURIComponent` throws.
-/

/-- Uppercase hexadecimal digit character, as emitted by `%XX` escapes. -/
def hexDigit (n : Nat) : Nat :=
  if n < 10 then 48 + n else 55 + n

/-- Is the code point an ASCII hex digit (either case)? -/
def isHexCp (c : Nat) : Bool :=
  decide ((48 ≤ c ∧ c ≤ 57) ∨ (65 ≤ c ∧ c ≤ 70) ∨ (97 ≤ c ∧ c ≤ 102))

/-- Numeric value of a hex digit character. -/
def hexVal (c : Nat) : Nat :=
  if c ≤ 57 then c - 48 else if c ≤ 70 then c - 55 else c - 87

/-- UTF-8 encoding of one Unicode scalar value. -/
def utf8EncodeCp (c : Nat) : List Nat :=
  if c < 0x80 then [c]
  else if c < 0x800 then [0xC0 + c / 64, 0x80 + c % 64]
  else if c < 0x10000 then [0xE0 + c / 4096, 0x80 + c / 64 % 64, 0x80 + c % 64]
  else [0xF0 + c / 262144, 0x80 + c / 4096 % 64, 0x80 + c / 64 % 64, 0x80 + c % 64]

/-- A JS string that is a sequence of Unicode scalar values (no lone
surrogates) — every value a Lean `Char` could carry. -/
def ValidStr (s : JSStr) : Prop :=
  ∀ c ∈ s, c < 0x110000 ∧ ¬(0xD800 ≤ c ∧ c ≤ 0xDFFF)

instance (s : JSStr) : Decidable (ValidStr s) := by
  unfold ValidStr; infer_instance

/-- Characters `encodeURIComponent` leaves unescaped:
`A-Z a-z 0-9 - _ . ! ~ * ' ( )`. -/
def isUriUnreserved (c : Nat) : Bool :=
  decide ((65 ≤ c ∧ c ≤ 90) ∨ (97 ≤ c ∧ c ≤ 122) ∨ (48 ≤ c ∧ c ≤ 57) ∨
    c = 45 ∨ c = 95 ∨ c = 46 ∨ c = 33 ∨ c = 126 ∨ c = 42 ∨ c = 39 ∨ c = 40 ∨ c = 41)

/-- The `%XX` escape of one byte, uppercase hex. -/
def percentByte (b : Nat) : List Nat :=
  [37, hexDigit (b / 16), hexDigit (b % 16)]

/-- JS `encodeURIComponent` on one code point. -/
def encodeURIComponentCp (c : Nat) : List Nat :=
  if isUriUnreserved c then [c] else (utf8EncodeCp c).flatMap percentByte

/-- JS `encodeURIComponent` (on strings of scalar values). -/
def encodeURIComponentS (s : JSStr) : JSStr :=
  s.flatMap encodeURIComponentCp

/-- JS `unescape`: decodes `%uXXXX` and `%XX` sequences, leaves
everything else (including a `%` not followed by valid hex) alone. -/
def unescape : JSStr → JSStr
  | [] => []
  | 37 :: r1 :: r2 :: r3 :: r4 :: r5 :: rest5 =>
    if r1 = 117 && isHexCp r2 && isHexCp r3 && isHexCp r4 && isHexCp r5 then
      (hexVal r2 * 4096 + hexVal r3 * 256 + hexVal r4 * 16 + hexVal r5) ::
        unescape rest5
    else if isHexCp r1 && isHexCp r2 then
      (hexVal r1 * 16 + hexVal r2) :: unescape (r3 :: r4 :: r5 :: rest5)
    else 37 :: unescape (r1 :: r2 :: r3 :: r4 :: r5 :: rest5)
  | 37 :: r1 :: r2 :: rest2 =>
    if isHexCp r1 && isHexCp r2 then
      (hexVal r1 * 16 + hexVal r2) :: unescape rest2
    else 37 :: unescape (r1 :: r2 :: rest2)
  | c :: rest => c :: unescape rest
  termination_by s => s.length
  decreasing_by all_goals simp_arith

/-- Characters JS `escape` leaves unescaped: `A-Z a-z 0-9 @ * _ + - . /`. -/
def isEscapeLiteral (c : Nat) : Bool :=
  decide ((65 ≤ c ∧ c ≤ 90) ∨ (97 ≤ c ∧ c ≤ 122) ∨ (48 ≤ c ∧ c ≤ 57) ∨
    c = 64 ∨ c = 42 ∨ c = 95 ∨ c = 43 ∨ c = 45 ∨ c = 46 ∨ c = 47)

/-- JS `escape` on one code point. -/
def escapeCp (c : Nat) : List Nat :=
  if isEscapeLiteral c then [c]
  else if c < 256 then percentByte c
  else [37, 117, hexDigit (c / 4096 % 16), hexDigit (c / 256 % 16),
        hexDigit (c / 16 % 16), hexDigit (c % 16)]

/-- JS `escape`. -/
def escapeS (s : JSStr) : JSStr :=
  s.flatMap escapeCp

/-- The base64 alphabet character for a sextet. -/
def b64Char (n : Nat) : Nat :=
  if n < 26 then 65 + n
  else if n < 52 then 97 + (n - 26)
  else if n < 62 then 48 + (n - 52)
  else if n = 62 then 43
  else 47

/-- Sextet value of a base64 alphabet character; `none` off-alphabet. -/
def b64Val (c : Nat) : Option Nat :=
  if 65 ≤ c ∧ c ≤ 90 then some (c - 65)
  else if 97 ≤ c ∧ c ≤ 122 then some (c - 97 + 26)
  else if 48 ≤ c ∧ c ≤ 57 then some (c - 48 + 52)
  else if c = 43 then some 62
  else if c = 47 then some 63
  else none

/-- JS `btoa` on a byte string (all code points < 256; JS throws
otherwise, and this program only ever passes byte strings). -/
def btoa : List Nat → List Nat
  | [] => []
  | [b1] => [b64Char (b1 / 4), b64Char (b1 % 4 * 16), 61, 61]
  | [b1, b2] =>
      [b64Char (b1 / 4), b64Char (b1 % 4 * 16 + b2 / 16), b64Char (b2 % 16 * 4), 61]
  | b1 :: b2 :: b3 :: rest =>
      b64Char (b1 / 4) :: b64Char (b1 % 4 * 16 + b2 / 16) ::
      b64Char (b2 % 16 * 4 + b3 / 64) :: b64Char (b3 % 64) :: btoa rest

/-- JS `atob` (forgiving base64 decode; `none` models the thrown
`InvalidCharacterError`; 61 is the pad character `=`). -/
def atob : List Nat → Option (List Nat)
  | [] => some []
  | [_] => none
  | c1 :: c2 :: rest2 => do
      let s1 ← b64Val c1
      let s2 ← b64Val c2
      match rest2 with
      | [] => some [s1 * 4 + s2 / 16]
      | c3 :: rest3 =>
        if c3 = 61 then
          if rest3 = [61] then some [s1 * 4 + s2 / 16] else none
        else do
          let s3 ← b64Val c3
          match rest3 with
          | [] => some [s1 * 4 + s2 / 16, s2 % 16 * 16 + s3 / 4]
          | c4 :: rest4 =>
            if c4 = 61 then
              if rest4 = [] then some [s1 * 4 + s2 / 16, s2 % 16 * 16 + s3 / 4]
              else none
            else do
              let s4 ← b64Val c4
              let tail ← atob rest4
              some ((s1 * 4 + s2 / 16) :: (s2 % 16 * 16 + s3 / 4) ::
                    (s3 % 4 * 64 + s4) :: tail)

/-- A lexical item of a percent-encoded string: a literal code point or
a `%XX`-encoded byte. -/
inductive URIToken where
  | lit (c : Nat)
  | byte (b : Nat)
  deriving DecidableEq, Repr

/-- Lex a string into literal/percent tokens; `none` models the
`URIError` thrown by a `%` not followed by two hex digits. -/
def uriTokens : JSStr → Option (List URIToken)
  | [] => some []
  | 37 :: h1 :: h2 :: rest2 =>
    if isHexCp h1 && isHexCp h2 then
      (uriTokens rest2).map (URIToken.byte (hexVal h1 * 16 + hexVal h2) :: ·)
    else none
  | c :: rest =>
    if c = 37 then none
    else (uriTokens rest).map (URIToken.lit c :: ·)

/-- Is a byte a UTF-8 continuation byte? -/
def isCont (b : Nat) : Bool :=
  decide (0x80 ≤ b ∧ b < 0xC0)

/-- Number of continuation bytes demanded by a UTF-8 leading byte, with
the accumulator seeded from its payload bits; `none` for bytes that can
never lead a sequence (`0x80`-`0xC1`, `0xF5`-`0xFF`). -/
def seqLen (b : Nat) : Option (Nat × Nat) :=
  if b < 0x80 then some (0, b)
  else if 0xC2 ≤ b ∧ b < 0xE0 then some (1, b - 0xC0)
  else if 0xE0 ≤ b ∧ b < 0xF0 then some (2, b - 0xE0)
  else if 0xF0 ≤ b ∧ b < 0xF5 then some (3, b - 0xF0)
  else none

/-- Fold continuation payloads into the scalar value. -/
def combine (acc : Nat) (vs : List Nat) : Nat :=
  vs.foldl (fun a v => a * 64 + v) acc

/-- The scalar-value checks `decodeURIComponent` applies per sequence
length: minimality (no overlong encodings) and the surrogate and plane
bounds. -/
def validRange (numCont : Nat) (c : Nat) : Bool :=
  match numCont with
  | 0 => true
  | 1 => true
  | 2 => decide (0x800 ≤ c ∧ ¬(0xD800 ≤ c ∧ c ≤ 0xDFFF))
  | _ => decide (0x10000 ≤ c ∧ c < 0x110000)

/-- Take exactly `n` continuation-byte tokens, returning their payloads
and the remaining tokens; `none` models the `URIError` thrown when a
sequence is cut short or malformed. -/
def takeContBytes : Nat → List URIToken → Option (List Nat × List URIToken)
  | 0, ts => some ([], ts)
  | n + 1, URIToken.byte b :: ts =>
    if isCont b then
      (takeContBytes n ts).map (fun p => ((b - 0x80) :: p.1, p.2))
    else none
  | _ + 1, _ => none

theorem takeContBytes_len : ∀ (n : Nat) (ts : List URIToken) (vs : List Nat)
    (rest : List URIToken), takeContBytes n ts = some (vs, rest) →
    rest.length ≤ ts.length
  | 0, ts, vs, rest, h => by
    simp only [takeContBytes, Option.some.injEq, Prod.mk.injEq] at h
    rw [← h.2]
  | n + 1, URIToken.byte b :: ts, vs, rest, h => by
    simp only [takeContBytes] at h
    by_cases hb : isCont b = true
    · rw [if_pos hb] at h
      cases h2 : takeContBytes n ts with
      | none =>
        rw [h2] at h
        simp at h
      | some p =>
        rw [h2] at h
        simp at h
        have hlen := takeContBytes_len n ts p.1 p.2 (by rw [h2])
        obtain ⟨hvs, hrest⟩ := h
        rw [← hrest]
        simp only [List.length_cons]
        omega
    · rw [if_neg hb] at h
      simp at h
  | n + 1, URIToken.lit c :: ts, vs, rest, h => by
    simp [takeContBytes] at h
  | n + 1, [], vs, rest, h => by
    simp [takeContBytes] at h

/-- Decode the token stream: a literal stands for itself, and each `%XX`
byte must lead a complete, minimal UTF-8 sequence made of further `%XX`
bytes (as `decodeURIComponent` demands); `none` models the `URIError`. -/
def decodeURITokens : List URIToken → Option (List Nat)
  | [] => some []
  | URIToken.lit c :: rest => (decodeURITokens rest).map (c :: ·)
  | URIToken.byte b :: rest =>
    match seqLen b with
    | none => none
    | some (n, acc) =>
      match h : takeContBytes n rest with
      | none => none
      | some (vs, rest2) =>
        let c := combine acc vs
        if validRange n c then (decodeURITokens rest2).map (c :: ·) else none
  termination_by ts => ts.length
  decreasing_by
  · simp_arith
  · have := takeContBytes_len _ _ _ _ h
    simp only [List.length_cons]
    omega

/-- JS `decodeURIComponent`; `none` models the thrown `URIError`. -/
def decodeURIComponentS (s : JSStr) : Option JSStr :=
  (uriTokens s).bind decodeURITokens

/-- The `function encode(str)` of the Home page. -/
def jsEncode (str : Option JSStr) : JSStr :=
  btoa (unescape (encodeURIComponentS (orEmpty str)))

/-- The `function decode(bytes)` of the Home page.  The outer `Option` result
is `none` when `atob` throws (that exception is not caught there). -/
def jsDecode (bytes : Option JSStr) : Option JSStr :=
  match atob (orEmpty bytes) with
  | none => none
  | some bs =>
    let escaped := escapeS bs
    match decodeURIComponentS escaped with
    | some r => some r
    | none => some (unescape escaped)

/-! ## Home page: language state, tabs and the judge request -/

inductive Language where
  | cpp | java | py
  deriving DecidableEq, Repr

/-- Per `useReducer(..., 'cpp')`, the initial language. -/
def initialLang : Language := Language.cpp

/-- The reducer body: the next language replaces the previous one (the
URL query string is rewritten as a side effect). -/
def setLangReducer (_prev next : Language) : Language := next

/-- The router effect: adopt the `lang` query parameter only when it is
one of `'cpp'`, `'java'`, `'py'`. -/
def langFromQuery (q : Option String) (cur : Language) : Language :=
  if q = some "cpp" then Language.cpp
  else if q = some "java" then Language.java
  else if q = some "py" then Language.py
  else cur

/-- The map `\x7b cpp: 54, java: 62, py: 71 \x7d[lang]`: the judge `language_id`. -/
def languageId : Language → Nat
  | Language.cpp => 54
  | Language.java => 62
  | Language.py => 71

/-- The map `\x7b cpp: 'cpp', java: 'java', py: 'python' \x7d[lang]`. -/
def monacoLanguage : Language → String
  | Language.cpp => "cpp"
  | Language.java => "java"
  | Language.py => "python"

/-- The query-string spelling of a language (also the editor `path`). -/
def langValue : Language → String
  | Language.cpp => "cpp"
  | Language.java => "java"
  | Language.py => "py"

/-- The pane holding a language's editor. -/
def paneOfLang : Language → Pane
  | Language.cpp => Pane.cpp
  | Language.java => Pane.java
  | Language.py => Pane.py

/-- The TabBar's language tabs: (label, value). -/
def languageTabs : List (String × String) :=
  [("Main.cpp", "cpp"), ("Main.java", "java"), ("Main.py", "py")]

/-! ## handleRunCode (Home page lines 244-291) -/

/-- The judge response body fields this page reads or rewrites. -/
structure JudgeResult where
  error : Option JSStr := none
  stdout : Option JSStr := none
  stderr : Option JSStr := none
  compile_output : Option JSStr := none
  message : Option JSStr := none
  deriving DecidableEq, Repr

/-- The request body posted to the judge. -/
structure RunRequest where
  source_code : JSStr
  language_id : Nat
  stdin : JSStr
  compiler_options : JSStr
  command_line_arguments : JSStr
  redirect_stderr_to_stdout : Bool
  deriving DecidableEq, Repr

/-- The `data` object built inside `handleRunCode`. -/
def buildRunRequest (lang : Language) (sourceValue stdinValue : JSStr) :
    RunRequest :=
  { source_code := jsEncode (some sourceValue)
    language_id := languageId lang
    stdin := jsEncode (some stdinValue)
    compiler_options := []
    command_line_arguments := []
    redirect_stderr_to_stdout := false }

/-- The Home page state touched by `handleRunCode`.  `alerts` counts
calls to `window.alert`. -/
structure HomeState where
  result : Option JudgeResult := none
  isRunning : Bool := false
  alerts : Nat := 0
  deriving DecidableEq, Repr

/-- What the `fetch` promise delivers: a network failure (caught by
`.catch`) or an HTTP response with its parsed JSON body. -/
inductive FetchOutcome where
  | networkError
  | response (ok : Bool) (data : JudgeResult)

/-- The `.then` callback: alert when `data.error || !resp.ok`, otherwise
mutate the four output fields with `decode` and `setResult(data)`.  A
`decode` that throws (`jsDecode = none`) aborts the callback; the
exception lands in `.catch`, so `result` is left unset. -/
def runCodeThen (st : HomeState) (ok : Bool) (data : JudgeResult) : HomeState :=
  if truthyStr data.error || !ok then { st with alerts := st.alerts + 1 }
  else
    match jsDecode data.stdout, jsDecode data.stderr,
          jsDecode data.compile_output, jsDecode data.message with
    | some o, some e, some c, some m =>
      let mutated : JudgeResult :=
        { data with
          stdout := some o
          stderr := some e
          compile_output := some c
          message := some m }
      { st with result := some mutated }
    | _, _, _, _ => st

/-- The function `handleRunCode`: early return while either editor ref is null;
otherwise set `isRunning`, clear `result`, run the fetch continuation,
and reset `isRunning` in `.finally`. -/
def handleRunCode (editorRef inputEditorRef : Option JSStr) (st : HomeState)
    (outcome : FetchOutcome) : HomeState :=
  match editorRef, inputEditorRef with
  | some _, some _ =>
    let st1 := { st with isRunning := true, result := none }
    let st2 :=
      match outcome with
      | FetchOutcome.networkError => st1
      | FetchOutcome.response ok data => runCodeThen st1 ok data
    { st2 with isRunning := false }
  | _, _ => st

/-! ## The editor panes as instantiated by the Home page -/

/-- The FirepadEditor props relevant to the collaboration session. -/
structure FirepadProps where
  language : String
  path : String
  defaultValue : Option JSStr
  firebaseRef : Option FirebaseRef
  deriving DecidableEq, Repr

/-- The code pane (left): per-language firebase child and default code. -/
def codePaneProps (root : Option FirebaseRef) (lang : Language)
    (defaultCodeOfLang : JSStr) : FirepadProps :=
  { language := monacoLanguage lang
    path := langValue lang
    defaultValue := some defaultCodeOfLang
    firebaseRef := firebaseRefs root (paneOfLang lang) }

/-- The input pane (top right): plaintext, `input` child, empty default. -/
def inputPaneProps (root : Option FirebaseRef) : FirepadProps :=
  { language := "plaintext"
    path := "input"
    defaultValue := some []
    firebaseRef := firebaseRefs root Pane.input }

/-- The call `provider.awareness.setLocalStateField('cursorColor',
colorFromUserId(userRef.key))`.  `colorFromUserId` lives in
`src/scripts/colorFromUserId.ts`, which is not part of this source
snapshot, so it is kept abstract as a parameter. -/
def localAwarenessAfterStart (colorFromUserId : String → JSStr)
    (userKey : String) : UserAwareness :=
  { cursorColor := some (colorFromUserId userKey) }

/-! ## Theorems -/

/-- C1: on every render, while the websocket provider has not reported a
successful sync the options handed to the Monaco editor have
`readOnly = true` (and the `isSynced` state starts `false`); after a
`'sync'` event carrying `true`, the options are exactly what the caller
supplied in `props.options`, so `readOnly` reverts to the caller's value. -/
theorem c1_read_only_until_synced (o : Option MonacoOptions) :
    (computeEditorOptions false o).readOnly = some true ∧
    initialIsSynced = false ∧
    computeEditorOptions (syncEventIsSynced true) o = o.getD {} ∧
    (computeEditorOptions (syncEventIsSynced true) o).readOnly =
      (o.getD {}).readOnly := by
  refine ⟨?_, rfl, ?_, ?_⟩ <;> simp [computeEditorOptions, syncEventIsSynced]

/-- C2: the shared document session identifier is exactly
`fileId + "." + firebaseRef.key`; for a fixed file it is injective in the
key (distinct pane keys join distinct sessions, equal file and key give
the same session), and the four panes carry the keys `editor-cpp`,
`editor-java`, `editor-py` and `input`. -/
theorem c2_session_identifier (fid k1 k2 : String) (r : FirebaseRef) :
    documentId fid k1 = fid ++ "." ++ k1 ∧
    (documentId fid k1 = documentId fid k2 ↔ k1 = k2) ∧
    firebaseRefs (some r) Pane.cpp = some ⟨"editor-cpp"⟩ ∧
    firebaseRefs (some r) Pane.java = some ⟨"editor-java"⟩ ∧
    firebaseRefs (some r) Pane.py = some ⟨"editor-py"⟩ ∧
    firebaseRefs (some r) Pane.input = some ⟨"input"⟩ := by
  refine ⟨rfl, ⟨fun h => ?_, fun h => by rw [h]⟩, rfl, rfl, rfl, rfl⟩
  simp only [documentId] at h
  have hdata := congrArg String.data h
  simp [String.data_append] at hdata
  exact String.ext hdata

/-- C2 witness: two panes of the same file with the child keys
`editor-cpp` and `editor-java` compute distinct session identifiers. -/
theorem c2_session_identifier_witness :
    documentId "file1" "editor-cpp" ≠ documentId "file1" "editor-java" := by
  intro h
  have h2 := (c2_session_identifier "file1" "editor-cpp" "editor-java"
    ⟨"x"⟩).2.1.mp h
  simp at h2

/-- C4: a `'sync'` event with `isSynced = true` inserts the default
content at offset 0 only when the `isInitialized` flag is unset, and it
sets the flag, so a second such event never inserts again; a `'sync'`
event with `false` changes nothing. -/
theorem c4_default_content_inserted_once (doc : YDocModel) (dv : Option JSStr) :
    onSyncDoc doc dv false = doc ∧
    (truthyFlag doc.isInitialized = true → onSyncDoc doc dv true = doc) ∧
    (truthyFlag doc.isInitialized = false →
      onSyncDoc doc dv true =
        { doc with isInitialized := some true
                   monacoText := orEmpty dv ++ doc.monacoText }) ∧
    (onSyncDoc doc dv true).isInitialized = some true ∧
    onSyncDoc (onSyncDoc doc dv true) dv true = onSyncDoc doc dv true := by
  obtain ⟨text, init⟩ := doc
  cases init with
  | none => simp [onSyncDoc, truthyFlag]
  | some b => cases b <;> simp [onSyncDoc, truthyFlag]

/-- C4 witness: on a fresh shared document a first synced event inserts
the default content and flags the document initialized. -/
theorem c4_default_content_inserted_once_witness :
    onSyncDoc ⟨[], none⟩ (some [120]) true = ⟨[120], some true⟩ := by
  have h := (c4_default_content_inserted_once ⟨[], none⟩ (some [120])).2.2.1 rfl
  simpa [orEmpty] using h

/-- Helper: the style-injection loop appends one `<style>` tag per added
client id, in order, to the existing body children. -/
theorem insertStylesLoop_eq_append (states : Nat → Option UserAwareness)
    (added : List Nat) (body : List JSStr) :
    insertStylesLoop states added body =
      body ++ added.map (fun id => styleTag id (colorOf states id)) := by
  induction added generalizing body with
  | nil => simp [insertStylesLoop]
  | cons id rest ih => simp [insertStylesLoop, ih]

/-- C5: when the awareness change event reports at least one added user,
one style tag per added id is appended to the document body, carrying the
`.yRemoteSelection-<id>, .yRemoteSelectionHead-<id>` rule whose color is
the user's `cursorColor` awareness field, or `'orange'` when absent; the
local client's `cursorColor` is set from `colorFromUserId(userRef.key)`
when the session starts. -/
theorem c5_presence_styles (states : Nat → Option UserAwareness)
    (added upd rem : List Nat) (body : List JSStr) (id : Nat)
    (u : UserAwareness) (c : JSStr) (colorFn : String → JSStr)
    (userKey : String) :
    (added ≠ [] →
      onAwarenessChange states added upd rem body =
        body ++ added.map (fun i => styleTag i (colorOf states i))) ∧
    (states id = some u → u.cursorColor = some c → colorOf states id = c) ∧
    ((states id).bind (·.cursorColor) = none →
      colorOf states id = strCps "orange") ∧
    (styleTag id c = strCps "<style>" ++ styleToAdd id c ++ strCps "</style>") ∧
    (localAwarenessAfterStart colorFn userKey).cursorColor =
      some (colorFn userKey) := by
  refine ⟨fun hne => ?_, fun hs hc => ?_, fun hn => ?_, rfl, rfl⟩
  · have : added.length ≠ 0 := by simpa using hne
    simp [onAwarenessChange, this, insertStylesLoop_eq_append]
  · simp [colorOf, hs, hc]
  · simp [colorOf, hn]

/-- C5 witness: an added user with no awareness state gets the fallback
color `'orange'`, and its style tag is appended to the body. -/
theorem c5_presence_styles_witness :
    onAwarenessChange (fun _ => none) [3] [] [] [] =
      [styleTag 3 (strCps "orange")] := by
  have h := (c5_presence_styles (fun _ => none) [3] [] [] [] 3
    ⟨none⟩ [] (fun _ => []) "k").1 (by simp)
  simpa [colorOf] using h

/-- C6: the collaboration effect creates the shared document, then the
websocket provider, then the Monaco binding, then attaches the presence
(awareness change) handler; its cleanup resets the connection status to
`'disconnected'`, marks the session unsynced, and destroys the document
and the provider. -/
theorem c6_session_lifecycle (s : SessionState) :
    effectBodyTrace.indexOf SessionAction.createDoc <
      effectBodyTrace.indexOf SessionAction.createProvider ∧
    effectBodyTrace.indexOf SessionAction.createProvider <
      effectBodyTrace.indexOf SessionAction.createBinding ∧
    effectBodyTrace.indexOf SessionAction.createBinding <
      effectBodyTrace.indexOf SessionAction.attachAwarenessChangeHandler ∧
    (runTrace {} effectBodyTrace).docAlive = true ∧
    (runTrace {} effectBodyTrace).providerAlive = true ∧
    (runTrace {} effectBodyTrace).bindingAlive = true ∧
    (runTrace s effectCleanupTrace).connectionStatus = "disconnected" ∧
    (runTrace s effectCleanupTrace).isSynced = false ∧
    (runTrace s effectCleanupTrace).docAlive = false ∧
    (runTrace s effectCleanupTrace).providerAlive = false := by
  refine ⟨by decide, by decide, by decide, by decide, by decide, by decide,
    ?_, ?_, ?_, ?_⟩ <;>
    simp [runTrace, applyAction, effectCleanupTrace]

/-- C7: the language state starts at `'cpp'`; the tab bar offers exactly
the three language values; a `lang` query parameter changes the state
only when it is one of the three; and the judge `language_id` sent is 54
for cpp, 62 for java, 71 for py. -/
theorem c7_language_state (q : Option String) (cur : Language)
    (src inp : JSStr) :
    initialLang = Language.cpp ∧
    languageTabs.map Prod.snd = ["cpp", "java", "py"] ∧
    langFromQuery (some "cpp") cur = Language.cpp ∧
    langFromQuery (some "java") cur = Language.java ∧
    langFromQuery (some "py") cur = Language.py ∧
    (q ≠ some "cpp" → q ≠ some "java" → q ≠ some "py" →
      langFromQuery q cur = cur) ∧
    (∀ next, setLangReducer cur next = next) ∧
    (buildRunRequest cur src inp).language_id = languageId cur ∧
    languageId Language.cpp = 54 ∧ languageId Language.java = 62 ∧
    languageId Language.py = 71 := by
  refine ⟨rfl, rfl, rfl, rfl, rfl, fun h1 h2 h3 => ?_, fun _ => rfl, rfl,
    rfl, rfl, rfl⟩
  simp [langFromQuery, h1, h2, h3]

/-- C7 witness: an unknown `lang` query parameter leaves the language
unchanged. -/
theorem c7_language_state_witness :
    langFromQuery (some "rust") Language.java = Language.java := by
  exact (c7_language_state (some "rust") Language.java [] []).2.2.2.2.2.1
    (by decide) (by decide) (by decide)

/-- C8: the input pane is a FirepadEditor with language `'plaintext'`,
bound to the firebase `input` child, with empty default content; its
session identifier is computed by the same `documentId` mechanism,
yielding `fileId + "." + "input"`. -/
theorem c8_input_pane (root : FirebaseRef) (fid : String) :
    (inputPaneProps (some root)).language = "plaintext" ∧
    (inputPaneProps (some root)).defaultValue = some [] ∧
    (inputPaneProps (some root)).firebaseRef = some ⟨"input"⟩ ∧
    ((inputPaneProps (some root)).firebaseRef.map
      (fun r => documentId fid r.key)) = some (documentId fid "input") ∧
    documentId fid "input" = fid ++ "." ++ "input" := by
  exact ⟨rfl, rfl, rfl, rfl, rfl⟩

/-- C10: the awareness change handler leaves the document body unchanged
whenever the added list is empty — in particular when users merely leave
— and in every case the previous body children persist as a prefix, so
injected style elements are never removed or altered. -/
theorem c10_styles_persist (states : Nat → Option UserAwareness)
    (added upd rem : List Nat) (body : List JSStr) :
    onAwarenessChange states [] upd rem body = body ∧
    ∃ suffix, onAwarenessChange states added upd rem body = body ++ suffix := by
  constructor
  · simp [onAwarenessChange]
  · by_cases h : added.length = 0
    · exact ⟨[], by simp [onAwarenessChange, h]⟩
    · exact ⟨added.map (fun id => styleTag id (colorOf states id)),
        by simp [onAwarenessChange, h, insertStylesLoop_eq_append]⟩

/-- Helper: what a set `result` implies about the `.then` callback's
inputs: the guard `data.error || !resp.ok` was falsy and every output
field of the stored result is the decoded body field. -/
theorem runCodeThen_result_some (st : HomeState) (ok : Bool)
    (data r : JudgeResult) (hst : st.result = none)
    (h : (runCodeThen st ok data).result = some r) :
    ok = true ∧ truthyStr data.error = false ∧
    r.stdout = jsDecode data.stdout ∧ r.stderr = jsDecode data.stderr ∧
    r.compile_output = jsDecode data.compile_output ∧
    r.message = jsDecode data.message := by
  unfold runCodeThen at h
  by_cases hc : (truthyStr data.error || !ok) = true
  · rw [if_pos hc] at h
    simp [hst] at h
  · rw [if_neg hc] at h
    simp only [Bool.or_eq_true, not_or] at hc
    obtain ⟨herr, hok⟩ := hc
    replace herr : truthyStr data.error = false := by simpa using herr
    replace hok : ok = true := by simpa using hok
    refine ⟨hok, herr, ?_⟩
    split at h
    · next o2 e2 c2 m2 ho he hco hm =>
      simp at h
      subst h
      simp [ho, he, hco, hm]
    · next =>
      rw [hst] at h
      exact absurd h (by simp)

/-- C3 counterexample: an `ok` response whose body carries an `error`
field holding the empty string (present, but falsy for JS `||`) still
gets its `result` set, so "sets the result state only when ... its body
has no error field" is false as stated. -/
theorem c3_counterexample :
    ({ error := some [], stdout := some [], stderr := some [],
       compile_output := some [], message := some [] } : JudgeResult).error
      = some [] ∧
    (handleRunCode (some []) (some []) {}
      (FetchOutcome.response true
        { error := some [], stdout := some [], stderr := some [],
          compile_output := some [], message := some [] })).result.isSome
      = true := by
  have h0 : decodeURITokens [] = some [] := by rw [decodeURITokens.eq_def]
  have hdec : jsDecode (some []) = some [] := by
    simp [jsDecode, orEmpty, atob, escapeS, decodeURIComponentS, uriTokens, h0]
  refine ⟨rfl, ?_⟩
  simp [handleRunCode, runCodeThen, truthyStr, hdec]

/-- C3 amended: `handleRunCode` sets `result` only when the response is
ok and the body's `error` field is absent or empty (falsy), decoding the
four output fields first; when the response is not ok or carries a
non-empty `error`, `result` stays null and an alert is shown; every
completed call resets `isRunning`; and a null editor ref makes the call
a no-op. -/
theorem c3_run_code_outcome (e i : JSStr) (st : HomeState) (ok : Bool)
    (data : JudgeResult) :
    (∀ i2 o, handleRunCode none i2 st o = st) ∧
    (∀ e2 o, handleRunCode e2 none st o = st) ∧
    (∀ o, (handleRunCode (some e) (some i) st o).isRunning = false) ∧
    (handleRunCode (some e) (some i) st FetchOutcome.networkError).result
      = none ∧
    ((truthyStr data.error = true ∨ ok = false) →
      (handleRunCode (some e) (some i) st
        (FetchOutcome.response ok data)).result = none ∧
      (handleRunCode (some e) (some i) st
        (FetchOutcome.response ok data)).alerts = st.alerts + 1) ∧
    (∀ r, (handleRunCode (some e) (some i) st
        (FetchOutcome.response ok data)).result = some r →
      ok = true ∧ truthyStr data.error = false ∧
      r.stdout = jsDecode data.stdout ∧ r.stderr = jsDecode data.stderr ∧
      r.compile_output = jsDecode data.compile_output ∧
      r.message = jsDecode data.message) ∧
    (truthyStr data.error = false → ok = true →
      ∀ o2 e2 c2 m2, jsDecode data.stdout = some o2 →
        jsDecode data.stderr = some e2 →
        jsDecode data.compile_output = some c2 →
        jsDecode data.message = some m2 →
        (handleRunCode (some e) (some i) st
          (FetchOutcome.response ok data)).result =
          some { data with
                 stdout := some o2
                 stderr := some e2
                 compile_output := some c2
                 message := some m2 }) := by
  refine ⟨fun i2 o => rfl, fun e2 o => by cases e2 <;> rfl, fun o => rfl,
    rfl, fun h => ?_, fun r hr => ?_, fun h1 h2 o2 e2 c2 m2 ho he hc hm => ?_⟩
  · have hc : (truthyStr data.error || !ok) = true := by
      rcases h with h | h <;> simp [h]
    constructor <;> simp [handleRunCode, runCodeThen, hc]
  · have hr2 : (runCodeThen { st with isRunning := true, result := none }
        ok data).result = some r := hr
    exact runCodeThen_result_some _ ok data r rfl hr2
  · simp [handleRunCode, runCodeThen, h1, h2, ho, he, hc, hm]

/-- C3 witness: a non-ok response leaves `result` null while the alert
counter is bumped, and `isRunning` ends false. -/
theorem c3_run_code_outcome_witness :
    (handleRunCode (some []) (some []) {}
      (FetchOutcome.response false { error := none })).result = none ∧
    (handleRunCode (some []) (some []) {}
      (FetchOutcome.response false { error := none })).isRunning = false := by
  have h := c3_run_code_outcome [] [] {} false { error := none }
  exact ⟨(h.2.2.2.2.1 (Or.inr rfl)).1, h.2.2.1 _⟩

/-! ## Round-trip lemmas for encode/decode -/

theorem isHexCp_hexDigit {n : Nat} (h : n < 16) : isHexCp (hexDigit n) = true := by
  unfold isHexCp hexDigit
  split <;> (simp; omega)

theorem hexVal_hexDigit {n : Nat} (h : n < 16) : hexVal (hexDigit n) = n := by
  unfold hexVal hexDigit
  split
  · split <;> omega
  · split
    · omega
    · split <;> omega

theorem hexDigit_ne_117 {n : Nat} (h : n < 16) : hexDigit n ≠ 117 := by
  unfold hexDigit
  split <;> omega

theorem unescape_nil : unescape [] = [] := by
  unfold unescape
  rfl

theorem unescape_cons_of_ne (c : Nat) (t : JSStr) (hc : c ≠ 37) :
    unescape (c :: t) = c :: unescape t := by
  match t with
  | [] => simp [unescape, hc]
  | [x1] => simp [unescape, hc]
  | [x1, x2] => simp [unescape, hc]
  | [x1, x2, x3] => simp [unescape, hc]
  | [x1, x2, x3, x4] => simp [unescape, hc]
  | x1 :: x2 :: x3 :: x4 :: x5 :: t5 => simp [unescape, hc]

theorem unescape_percent (b : Nat) (t : JSStr) (hb : b < 256) :
    unescape (percentByte b ++ t) = b :: unescape t := by
  have hh1 : isHexCp (hexDigit (b / 16)) = true := isHexCp_hexDigit (by omega)
  have hh2 : isHexCp (hexDigit (b % 16)) = true := isHexCp_hexDigit (by omega)
  have hv1 : hexVal (hexDigit (b / 16)) = b / 16 := hexVal_hexDigit (by omega)
  have hv2 : hexVal (hexDigit (b % 16)) = b % 16 := hexVal_hexDigit (by omega)
  have hne : hexDigit (b / 16) ≠ 117 := hexDigit_ne_117 (by omega)
  have harith : b / 16 * 16 + b % 16 = b := by omega
  match t with
  | [] => simp [percentByte, unescape, hh1, hh2, hne, hv1, hv2, harith]
  | [x1] => simp [percentByte, unescape, hh1, hh2, hne, hv1, hv2, harith]
  | [x1, x2] => simp [percentByte, unescape, hh1, hh2, hne, hv1, hv2, harith]
  | x1 :: x2 :: x3 :: t3 =>
    simp [percentByte, unescape, hh1, hh2, hne, hv1, hv2, harith]

theorem unescape_append_percents (bs : List Nat) (t : JSStr)
    (hbs : ∀ b ∈ bs, b < 256) :
    unescape (bs.flatMap percentByte ++ t) = bs ++ unescape t := by
  induction bs with
  | nil => simp
  | cons b rest ih =>
    simp only [List.flatMap_cons, List.append_assoc, List.cons_append]
    rw [unescape_percent b _ (hbs b (by simp))]
    rw [ih (fun x hx => hbs x (by simp [hx]))]

theorem utf8EncodeCp_bytes_lt {c : Nat} (hc : c < 0x110000) :
    ∀ b ∈ utf8EncodeCp c, b < 256 := by
  intro b hb
  unfold utf8EncodeCp at hb
  by_cases h1 : c < 128
  · simp [h1] at hb
    omega
  · by_cases h2 : c < 2048
    · simp [h1, h2] at hb
      omega
    · by_cases h3 : c < 65536
      · simp [h1, h2, h3] at hb
        omega
      · simp [h1, h2, h3] at hb
        omega

theorem utf8Str_bytes_lt (s : JSStr) (hs : ValidStr s) :
    ∀ b ∈ s.flatMap utf8EncodeCp, b < 256 := by
  intro b hb
  simp only [List.mem_flatMap] at hb
  obtain ⟨c, hcs, hbc⟩ := hb
  exact utf8EncodeCp_bytes_lt (hs c hcs).1 b hbc

theorem unescape_encodeURIComponent (s : JSStr) (hs : ValidStr s) :
    unescape (encodeURIComponentS s) = s.flatMap utf8EncodeCp := by
  induction s with
  | nil => simpa [encodeURIComponentS] using unescape_nil
  | cons c cs ih =>
    have hc := hs c (by simp)
    have hcs : ValidStr cs := fun x hx => hs x (by simp [hx])
    simp only [encodeURIComponentS, List.flatMap_cons] at *
    by_cases hu : isUriUnreserved c = true
    · have hlt : c < 0x80 := by
        simp [isUriUnreserved] at hu
        omega
      have hne : c ≠ 37 := by
        simp [isUriUnreserved] at hu
        omega
      rw [show encodeURIComponentCp c = [c] from by simp [encodeURIComponentCp, hu]]
      rw [List.singleton_append, unescape_cons_of_ne c _ hne, ih hcs]
      rw [show utf8EncodeCp c = [c] from by simp [utf8EncodeCp, hlt]]
      rfl
    · rw [show encodeURIComponentCp c = (utf8EncodeCp c).flatMap percentByte from
        by simp [encodeURIComponentCp, hu]]
      rw [unescape_append_percents _ _ (utf8EncodeCp_bytes_lt hc.1), ih hcs]

theorem b64Val_b64Char {n : Nat} (h : n < 64) : b64Val (b64Char n) = some n := by
  interval_cases n <;> rfl

theorem b64Char_ne_61 (n : Nat) : b64Char n ≠ 61 := by
  unfold b64Char
  split
  · omega
  · split
    · omega
    · split
      · omega
      · split <;> omega

theorem atob_btoa : ∀ (bs : List Nat), (∀ b ∈ bs, b < 256) →
    atob (btoa bs) = some bs
  | [], _ => rfl
  | [b1], h => by
    have hb1 : b1 < 256 := h b1 (by simp)
    show atob [b64Char (b1 / 4), b64Char (b1 % 4 * 16), 61, 61] = some [b1]
    simp only [atob, b64Val_b64Char (show b1 / 4 < 64 by omega),
      b64Val_b64Char (show b1 % 4 * 16 < 64 by omega), Option.bind_eq_bind,
      Option.some_bind]
    simp only [if_true]
    simp only [Option.some.injEq, List.cons.injEq, and_true]
    omega
  | [b1, b2], h => by
    have hb1 : b1 < 256 := h b1 (by simp)
    have hb2 : b2 < 256 := h b2 (by simp)
    show atob [b64Char (b1 / 4), b64Char (b1 % 4 * 16 + b2 / 16),
      b64Char (b2 % 16 * 4), 61] = some [b1, b2]
    simp only [atob, b64Val_b64Char (show b1 / 4 < 64 by omega),
      b64Val_b64Char (show b1 % 4 * 16 + b2 / 16 < 64 by omega),
      b64Val_b64Char (show b2 % 16 * 4 < 64 by omega), Option.bind_eq_bind,
      Option.some_bind]
    rw [if_neg (b64Char_ne_61 _)]
    simp only [Option.some_bind, if_true]
    simp only [Option.some.injEq, List.cons.injEq, and_true]
    constructor <;> omega
  | b1 :: b2 :: b3 :: rest, h => by
    have hb1 : b1 < 256 := h b1 (by simp)
    have hb2 : b2 < 256 := h b2 (by simp)
    have hb3 : b3 < 256 := h b3 (by simp)
    have ih := atob_btoa rest (fun x hx => h x (by simp [hx]))
    show atob (b64Char (b1 / 4) :: b64Char (b1 % 4 * 16 + b2 / 16) ::
      b64Char (b2 % 16 * 4 + b3 / 64) :: b64Char (b3 % 64) :: btoa rest)
      = some (b1 :: b2 :: b3 :: rest)
    simp only [atob, b64Val_b64Char (show b1 / 4 < 64 by omega),
      b64Val_b64Char (show b1 % 4 * 16 + b2 / 16 < 64 by omega),
      b64Val_b64Char (show b2 % 16 * 4 + b3 / 64 < 64 by omega),
      b64Val_b64Char (show b3 % 64 < 64 by omega), Option.bind_eq_bind,
      Option.some_bind]
    rw [if_neg (b64Char_ne_61 _), if_neg (b64Char_ne_61 _)]
    simp only [Option.some_bind, ih, Option.some.injEq, List.cons.injEq]
    refine ⟨by omega, by omega, by omega, trivial⟩

/-- Token image of `escape` on a byte string: literal characters stay
literal, everything else arrives as a `%XX` byte token. -/
def escTokens (bs : List Nat) : List URIToken :=
  bs.map (fun b => if isEscapeLiteral b then URIToken.lit b else URIToken.byte b)

theorem escTokens_append (a b : List Nat) :
    escTokens (a ++ b) = escTokens a ++ escTokens b := by
  simp [escTokens]

theorem isEscapeLiteral_of_ge {b : Nat} (h : 128 ≤ b) :
    isEscapeLiteral b = false := by
  simp [isEscapeLiteral]
  omega

theorem uriTokens_cons_of_ne (c : Nat) (t : JSStr) (hc : c ≠ 37) :
    uriTokens (c :: t) = (uriTokens t).map (URIToken.lit c :: ·) := by
  match t with
  | [] => simp [uriTokens, hc]
  | [x1] => simp [uriTokens, hc]
  | x1 :: x2 :: t2 => simp [uriTokens, hc]

theorem uriTokens_percent (b : Nat) (t : JSStr) (hb : b < 256) :
    uriTokens (percentByte b ++ t) = (uriTokens t).map (URIToken.byte b :: ·) := by
  have hh1 := isHexCp_hexDigit (show b / 16 < 16 by omega)
  have hh2 := isHexCp_hexDigit (show b % 16 < 16 by omega)
  have hv1 := hexVal_hexDigit (show b / 16 < 16 by omega)
  have hv2 := hexVal_hexDigit (show b % 16 < 16 by omega)
  have harith : b / 16 * 16 + b % 16 = b := by omega
  simp [percentByte, uriTokens, hh1, hh2, hv1, hv2, harith]

theorem uriTokens_escape (bs : List Nat) (hbs : ∀ b ∈ bs, b < 256) :
    uriTokens (escapeS bs) = some (escTokens bs) := by
  induction bs with
  | nil => rfl
  | cons b rest ih =>
    have hb : b < 256 := hbs b (by simp)
    have hrest := fun x hx => hbs x (List.mem_cons_of_mem _ hx)
    rw [show escapeS (b :: rest) = escapeCp b ++ escapeS rest from rfl]
    by_cases hl : isEscapeLiteral b = true
    · have hne : b ≠ 37 := by
        intro hEq
        rw [hEq] at hl
        simp [isEscapeLiteral] at hl
      rw [show escapeCp b = [b] from by simp [escapeCp, hl]]
      rw [List.singleton_append, uriTokens_cons_of_ne b _ hne, ih hrest]
      simp [escTokens, hl]
    · rw [show escapeCp b = percentByte b from by simp [escapeCp, hl, hb]]
      rw [uriTokens_percent b _ hb, ih hrest]
      simp [escTokens, hl]

theorem decodeURITokens_nil : decodeURITokens [] = some [] := by
  rw [decodeURITokens.eq_def]

theorem decodeURITokens_lit (c : Nat) (ts : List URIToken) :
    decodeURITokens (URIToken.lit c :: ts)
      = (decodeURITokens ts).map (c :: ·) := by
  rw [decodeURITokens.eq_def]

theorem decodeURITokens_ascii (b : Nat) (ts : List URIToken) (h : b < 128) :
    decodeURITokens (URIToken.byte b :: ts)
      = (decodeURITokens ts).map (b :: ·) := by
  rw [decodeURITokens.eq_def]
  have hs : seqLen b = some (0, b) := by simp [seqLen, h]
  simp only [hs]
  split
  · next heq =>
    exact absurd heq (by simp [takeContBytes])
  · next vs rest2 heq =>
    rw [show takeContBytes 0 ts = some ([], ts) from rfl] at heq
    simp only [Option.some.injEq, Prod.mk.injEq] at heq
    obtain ⟨rfl, rfl⟩ := heq
    simp [combine, validRange]

theorem decodeURITokens_byte2 (b b2 : Nat) (ts : List URIToken)
    (h1 : ¬b < 128) (h2 : 194 ≤ b ∧ b < 224) (h3 : isCont b2 = true) :
    decodeURITokens (URIToken.byte b :: URIToken.byte b2 :: ts)
      = (decodeURITokens ts).map (((b - 192) * 64 + (b2 - 128)) :: ·) := by
  rw [decodeURITokens.eq_def]
  have hs : seqLen b = some (1, b - 192) := by
    simp [seqLen, h1, h2]
  have ht : takeContBytes 1 (URIToken.byte b2 :: ts) = some ([b2 - 128], ts) := by
    simp [takeContBytes, h3]
  simp only [hs]
  split
  · next heq =>
    rw [ht] at heq
    exact absurd heq (by simp)
  · next vs rest2 heq =>
    rw [ht] at heq
    simp only [Option.some.injEq, Prod.mk.injEq] at heq
    obtain ⟨rfl, rfl⟩ := heq
    simp [combine, validRange]

theorem decodeURITokens_byte3 (b b2 b3 : Nat) (ts : List URIToken)
    (h1 : ¬b < 128) (h2 : ¬(194 ≤ b ∧ b < 224)) (h3 : 224 ≤ b ∧ b < 240)
    (h4 : isCont b2 = true) (h5 : isCont b3 = true)
    (h6 : 2048 ≤ ((b - 224) * 64 + (b2 - 128)) * 64 + (b3 - 128) ∧
      ¬(55296 ≤ ((b - 224) * 64 + (b2 - 128)) * 64 + (b3 - 128) ∧
        ((b - 224) * 64 + (b2 - 128)) * 64 + (b3 - 128) ≤ 57343)) :
    decodeURITokens
        (URIToken.byte b :: URIToken.byte b2 :: URIToken.byte b3 :: ts)
      = (decodeURITokens ts).map
          ((((b - 224) * 64 + (b2 - 128)) * 64 + (b3 - 128)) :: ·) := by
  rw [decodeURITokens.eq_def]
  have hs : seqLen b = some (2, b - 224) := by
    simp [seqLen, h1, h2, h3]
  have ht : takeContBytes 2 (URIToken.byte b2 :: URIToken.byte b3 :: ts)
      = some ([b2 - 128, b3 - 128], ts) := by
    simp [takeContBytes, h4, h5]
  simp only [hs]
  split
  · next heq =>
    rw [ht] at heq
    exact absurd heq (by simp)
  · next vs rest2 heq =>
    rw [ht] at heq
    simp only [Option.some.injEq, Prod.mk.injEq] at heq
    obtain ⟨rfl, rfl⟩ := heq
    simp [combine, validRange, h6.1, h6.2]

theorem decodeURITokens_byte4 (b b2 b3 b4 : Nat) (ts : List URIToken)
    (h1 : ¬b < 128) (h2 : ¬(194 ≤ b ∧ b < 224)) (h3 : ¬(224 ≤ b ∧ b < 240))
    (h4 : 240 ≤ b ∧ b < 245) (h5 : isCont b2 = true) (h6 : isCont b3 = true)
    (h7 : isCont b4 = true)
    (h8 : 65536 ≤ (((b - 240) * 64 + (b2 - 128)) * 64 + (b3 - 128)) * 64
        + (b4 - 128) ∧
      (((b - 240) * 64 + (b2 - 128)) * 64 + (b3 - 128)) * 64 + (b4 - 128)
        < 1114112) :
    decodeURITokens (URIToken.byte b :: URIToken.byte b2 :: URIToken.byte b3 ::
        URIToken.byte b4 :: ts)
      = (decodeURITokens ts).map
          (((((b - 240) * 64 + (b2 - 128)) * 64 + (b3 - 128)) * 64
            + (b4 - 128)) :: ·) := by
  rw [decodeURITokens.eq_def]
  have hs : seqLen b = some (3, b - 240) := by
    simp [seqLen, h1, h2, h3, h4]
  have ht : takeContBytes 3
        (URIToken.byte b2 :: URIToken.byte b3 :: URIToken.byte b4 :: ts)
      = some ([b2 - 128, b3 - 128, b4 - 128], ts) := by
    simp [takeContBytes, h5, h6, h7]
  simp only [hs]
  split
  · next heq =>
    rw [ht] at heq
    exact absurd heq (by simp)
  · next vs rest2 heq =>
    rw [ht] at heq
    simp only [Option.some.injEq, Prod.mk.injEq] at heq
    obtain ⟨rfl, rfl⟩ := heq
    simp [combine, validRange, h8.1, h8.2]

theorem decodeURITokens_utf8 (c : Nat) (hc1 : c < 0x110000)
    (hc2 : ¬(0xD800 ≤ c ∧ c ≤ 0xDFFF)) (ts : List URIToken) :
    decodeURITokens (escTokens (utf8EncodeCp c) ++ ts)
      = (decodeURITokens ts).map (c :: ·) := by
  by_cases h1 : c < 128
  · rw [show utf8EncodeCp c = [c] from by simp [utf8EncodeCp, h1]]
    by_cases hl : isEscapeLiteral c = true
    · rw [show escTokens [c] = [URIToken.lit c] from by simp [escTokens, hl]]
      exact decodeURITokens_lit c ts
    · rw [show escTokens [c] = [URIToken.byte c] from by simp [escTokens, hl]]
      exact decodeURITokens_ascii c ts h1
  · by_cases h2 : c < 2048
    · rw [show utf8EncodeCp c = [192 + c / 64, 128 + c % 64] from by
        simp [utf8EncodeCp, h1, h2]]
      have e1 : isEscapeLiteral (192 + c / 64) = false :=
        isEscapeLiteral_of_ge (by omega)
      have e2 : isEscapeLiteral (128 + c % 64) = false :=
        isEscapeLiteral_of_ge (by omega)
      rw [show escTokens [192 + c / 64, 128 + c % 64]
          = [URIToken.byte (192 + c / 64), URIToken.byte (128 + c % 64)] from by
        simp [escTokens, e1, e2]]
      rw [List.cons_append, List.cons_append, List.nil_append]
      rw [decodeURITokens_byte2 _ _ ts (by omega) (by omega)
        (by simp [isCont]; omega)]
      rw [show (192 + c / 64 - 192) * 64 + (128 + c % 64 - 128) = c from by omega]
    · by_cases h3 : c < 65536
      · rw [show utf8EncodeCp c
            = [224 + c / 4096, 128 + c / 64 % 64, 128 + c % 64] from by
          simp [utf8EncodeCp, h1, h2, h3]]
        have e1 : isEscapeLiteral (224 + c / 4096) = false :=
          isEscapeLiteral_of_ge (by omega)
        have e2 : isEscapeLiteral (128 + c / 64 % 64) = false :=
          isEscapeLiteral_of_ge (by omega)
        have e3 : isEscapeLiteral (128 + c % 64) = false :=
          isEscapeLiteral_of_ge (by omega)
        rw [show escTokens [224 + c / 4096, 128 + c / 64 % 64, 128 + c % 64]
            = [URIToken.byte (224 + c / 4096), URIToken.byte (128 + c / 64 % 64),
               URIToken.byte (128 + c % 64)] from by simp [escTokens, e1, e2, e3]]
        rw [List.cons_append, List.cons_append, List.cons_append, List.nil_append]
        rw [decodeURITokens_byte3 _ _ _ ts (by omega) (by omega) (by omega)
          (by simp [isCont]; omega) (by simp [isCont]; omega) (by omega)]
        rw [show ((224 + c / 4096 - 224) * 64 + (128 + c / 64 % 64 - 128)) * 64
            + (128 + c % 64 - 128) = c from by omega]
      · rw [show utf8EncodeCp c = [240 + c / 262144, 128 + c / 4096 % 64,
            128 + c / 64 % 64, 128 + c % 64] from by
          simp [utf8EncodeCp, h1, h2, h3]]
        have e1 : isEscapeLiteral (240 + c / 262144) = false :=
          isEscapeLiteral_of_ge (by omega)
        have e2 : isEscapeLiteral (128 + c / 4096 % 64) = false :=
          isEscapeLiteral_of_ge (by omega)
        have e3 : isEscapeLiteral (128 + c / 64 % 64) = false :=
          isEscapeLiteral_of_ge (by omega)
        have e4 : isEscapeLiteral (128 + c % 64) = false :=
          isEscapeLiteral_of_ge (by omega)
        rw [show escTokens [240 + c / 262144, 128 + c / 4096 % 64,
            128 + c / 64 % 64, 128 + c % 64]
            = [URIToken.byte (240 + c / 262144), URIToken.byte (128 + c / 4096 % 64),
               URIToken.byte (128 + c / 64 % 64), URIToken.byte (128 + c % 64)]
          from by simp [escTokens, e1, e2, e3, e4]]
        rw [List.cons_append, List.cons_append, List.cons_append,
          List.cons_append, List.nil_append]
        rw [decodeURITokens_byte4 _ _ _ _ ts (by omega) (by omega) (by omega)
          (by omega) (by simp [isCont]; omega) (by simp [isCont]; omega)
          (by simp [isCont]; omega) (by omega)]
        rw [show (((240 + c / 262144 - 240) * 64 + (128 + c / 4096 % 64 - 128))
            * 64 + (128 + c / 64 % 64 - 128)) * 64 + (128 + c % 64 - 128) = c
          from by omega]

theorem decodeURITokens_utf8Str (s : JSStr) (hs : ValidStr s) :
    decodeURITokens (escTokens (s.flatMap utf8EncodeCp)) = some s := by
  induction s with
  | nil => exact decodeURITokens_nil
  | cons c cs ih =>
    have hc := hs c (by simp)
    have hcs : ValidStr cs := fun x hx => hs x (by simp [hx])
    simp only [List.flatMap_cons, escTokens_append]
    rw [decodeURITokens_utf8 c hc.1 hc.2, ih hcs]
    rfl

theorem decodeURIComponentS_escape_utf8 (s : JSStr) (hs : ValidStr s) :
    decodeURIComponentS (escapeS (s.flatMap utf8EncodeCp)) = some s := by
  unfold decodeURIComponentS
  rw [uriTokens_escape _ (utf8Str_bytes_lt s hs)]
  simpa using decodeURITokens_utf8Str s hs

/-- C9: for every well-formed string (scalar values only; the empty
string and non-ASCII strings included), `decode(encode(s)) = s`, and both
functions treat a null argument exactly like the empty string. -/
theorem c9_encode_decode_roundtrip (s : JSStr) (hs : ValidStr s) :
    jsDecode (some (jsEncode (some s))) = some s ∧
    jsEncode none = jsEncode (some []) ∧
    jsDecode none = jsDecode (some []) := by
  refine ⟨?_, rfl, rfl⟩
  unfold jsDecode jsEncode
  simp only [orEmpty]
  rw [unescape_encodeURIComponent s hs]
  rw [atob_btoa _ (utf8Str_bytes_lt s hs)]
  simp [decodeURIComponentS_escape_utf8 s hs]

/-- C9 witness: the three-character string `"hié"` (with a non-ASCII
code point) survives the round trip. -/
theorem c9_encode_decode_roundtrip_witness :
    jsDecode (some (jsEncode (some [104, 105, 233]))) = some [104, 105, 233] :=
  (c9_encode_decode_roundtrip [104, 105, 233] (by decide)).1

end IDE
